import Mathlib

/-
Verification of the annotation core of the Audio_Classification_Annotator
repository (src/main.py).  The Python functions are shallowly embedded as
Lean definitions:

  * a Python annotation dict {"filename": ..., "labels": ...} becomes `Record`;
  * the slot array (list of dict-or-None) becomes `List (Option Record)`,
    with `none` modelling Python `None` (falsy) and `some r` a record
    (a two-key dict, always truthy);
  * Python list indexing `l[i]` with an `int` index uses negative-index
    semantics and raises IndexError when out of range; this is modelled by
    `pyGet` / `pySet` returning `Option` (`none` = IndexError);
  * the persisted CSV file is modelled as a list of line outcomes
    (`CsvLine`): a well-formed data row carries a `Record` (the csv module
    writes and re-reads the two string fields verbatim, quoting as needed),
    and `CsvLine.bad` models a line whose processing raises an exception
    (e.g. undecodable bytes mid-file); `FileState.absent` models a missing
    file;
  * a Python dict keyed by filename becomes an insertion-ordered
    association list with `mapLookup` / `mapInsert` (update-in-place on an
    existing key, append otherwise — exactly dict assignment order);
  * the write loop shared by save_annotation / delete_annotation /
    export_annotations (header plus one row per truthy entry, in slot
    order) becomes `write_rows` / `write_lines`;
  * Python float division in get_annotation_status is modelled with `Rat`;
    the claimed values (0 for an empty corpus, annotated/total otherwise,
    exactly 1 when annotated = total) are all exactly representable, so
    rational arithmetic is faithful for these properties.
-/

/-- Annotation record, the Python dict `{"filename": f, "labels": s}` built in
`save_annotation`; `labels` is the already-joined label string. -/
structure Record where
  filename : String
  labels : String
deriving DecidableEq, Repr

/-- Model of `os.path.basename` for POSIX paths: the part after the last
slash. -/
def basename (p : String) : String :=
  (p.splitOn "/").getLastD ""

/-- Model of the label join in `save_annotation`:
`", ".join(labels) if labels else ""`, which equals
`String.intercalate ", "` on every list (the join of `[]` is `""`). -/
def joinLabels (labels : List String) : String :=
  String.intercalate ", " labels

/-- Python list read `l[i]` with an `int` index: non-negative indices read
directly, negative indices read from the end; `none` models the IndexError
raised when the index is out of range. -/
def pyGet (l : List α) (i : Int) : Option α :=
  if 0 ≤ i then l[i.toNat]?
  else if 0 ≤ (l.length : Int) + i then l[((l.length : Int) + i).toNat]?
  else none

/-- Python list write `l[i] = a` with an `int` index (on a copy, since the
source copies with `l[:]` before mutating): `none` models IndexError. -/
def pySet (l : List α) (i : Int) (a : α) : Option (List α) :=
  if 0 ≤ i then
    if i < (l.length : Int) then some (l.set i.toNat a) else none
  else if 0 ≤ (l.length : Int) + i then
    some (l.set ((l.length : Int) + i).toNat a)
  else none

/-- Lookup in a filename-keyed Python dict, modelled as an insertion-ordered
association list (keys are unique when built with `mapInsert`). -/
def mapLookup (k : String) : List (String × Record) → Option Record
  | [] => none
  | (k', v) :: rest => if k' = k then some v else mapLookup k rest

/-- Python dict assignment `m[k] = v`: overwrite the existing binding in
place, otherwise append (preserving insertion order). -/
def mapInsert (m : List (String × Record)) (k : String) (v : Record) :
    List (String × Record) :=
  match m with
  | [] => [(k, v)]
  | (k', v') :: rest =>
      if k' = k then (k, v) :: rest else (k', v') :: mapInsert rest k v

/-- One line of the persisted CSV table as seen by the reading loop of
`load_existing_annotations`: either a well-formed data row (the csv module
returns the two string fields verbatim) or a line whose processing raises
(`bad`), e.g. undecodable bytes. -/
inductive CsvLine where
  | row (r : Record)
  | bad
deriving DecidableEq, Repr

/-- State of the persisted table file `annotations.csv`. -/
inductive FileState where
  | absent
  | present (lines : List CsvLine)
deriving DecidableEq, Repr

/-- The reading loop of `load_existing_annotations`:
`for row in reader: existing[row['filename']] = row`, wrapped in
`try ... except Exception: pass`.  A `bad` line raises; the `except` clause
swallows the exception and the function returns the dict accumulated so
far. -/
def readRows : List CsvLine → List (String × Record) → List (String × Record)
  | [], acc => acc
  | .row r :: rest, acc => readRows rest (mapInsert acc r.filename r)
  | .bad :: _, acc => acc

/-- `load_existing_annotations` (src/main.py lines 71-82): empty dict when
the file does not exist, otherwise the reading loop above. -/
def load_existing_annots : FileState → List (String × Record)
  | .absent => []
  | .present lines => readRows lines []

/-- `init_annotations` (src/main.py lines 84-90): start from `[None] * n`
and fill slot `i` with `existing_files[basename(file_list[i])]` when that
key is present — i.e. slot `i` is exactly the dict lookup of the basename. -/
def init_annots (file_list : List String)
    (existing_files : List (String × Record)) : List (Option Record) :=
  file_list.map fun filepath => mapLookup (basename filepath) existing_files

/-- The data rows emitted by the persist loop shared by `save_annotation`,
`delete_annotation` and `export_annotations`: one row per truthy entry, in
slot order (`for entry in annotations: if entry: writer.writerow(entry)`). -/
def write_rows (ann : List (Option Record)) : List Record :=
  ann.filterMap id

/-- The persisted file content produced by a successful full rewrite: every
written line is a well-formed data row. -/
def write_lines (ann : List (Option Record)) : List CsvLine :=
  (write_rows ann).map CsvLine.row

/-- `get_annotations_table` (src/main.py lines 92-93): the projected table
`[[a["filename"], a["labels"]] for a in annotations if a]`. -/
def get_annots_table (ann : List (Option Record)) : List (String × String) :=
  (ann.filterMap id).map fun a => (a.filename, a.labels)

/-- `get_annotation_status` (src/main.py lines 63-69), with the
human-readable text dropped: returns the annotated count
(`sum(1 for a in annotations if a)`) and the progress fraction
(`annotated / total`, or the early-returned `0` when `total == 0`). -/
def get_annot_status (ann : List (Option Record)) : Nat × Rat :=
  let total := ann.length
  if total = 0 then (0, 0)
  else
    let annotated := ann.countP fun a => a.isSome
    (annotated, (annotated : Rat) / (total : Rat))

/-- `navigate_files` (src/main.py lines 32-39): clamp the moved cursor into
`[0, len-1]`, report the file, the status string and the basename. -/
def navigate_files (direction current_index : Int) (file_list : List String) :
    Int × Option String × String × String :=
  if file_list = [] then (0, none, "No files loaded", "")
  else
    let new_index :=
      max 0 (min (current_index + direction) ((file_list.length : Int) - 1))
    let current_file := (file_list[new_index.toNat]?).getD ""
    (new_index, some current_file,
      "File " ++ toString (new_index + 1) ++ " / " ++ toString file_list.length,
      basename current_file)

/-- Iterated navigation: start at a cursor and apply a sequence of moves,
keeping the cursor component of each `navigate_files` result. -/
def navSeq (files : List String) : Int → List Int → Int
  | start, [] => start
  | start, d :: ds => navSeq files (navigate_files d start files).1 ds

/-- Status outcome of `save_annotation`: `saved f` stands for the string
`"✅ Saved: " ++ f`, `errorSaving` for the caught-write-exception message,
`noFile` for the early `"No file to save"` return. -/
inductive SaveStatus where
  | saved (filename : String)
  | errorSaving
  | noFile
deriving DecidableEq, Repr

/-- Result of `save_annotation`: the status, the returned annotation array,
and the rows successfully rewritten to the CSV (`none` when no successful
write happened). -/
structure SaveResult where
  status : SaveStatus
  ann : List (Option Record)
  written : Option (List Record)
deriving DecidableEq, Repr

/-- `save_annotation` (src/main.py lines 41-61).  `writeOk` models whether
the `open`/write of the CSV succeeds (the `try` body) or raises (caught by
the `except`).  The guard is `not file_list or current_index is None or
current_index >= len(file_list)` — integer indices only are modelled, so the
`is None` arm is omitted.  `Except.error ()` models an uncaught IndexError
from `file_list[current_index]` or `annotations[current_index] = ...`. -/
def save_annot (writeOk : Bool) (current_index : Int) (file_list : List String)
    (labels : List String) (ann : List (Option Record)) :
    Except Unit SaveResult :=
  if file_list = [] ∨ (file_list.length : Int) ≤ current_index then
    .ok ⟨.noFile, ann, none⟩
  else
    match pyGet file_list current_index with
    | none => .error ()
    | some current_file =>
      let fn := basename current_file
      match pySet ann current_index (some ⟨fn, joinLabels labels⟩) with
      | none => .error ()
      | some ann2 =>
        if writeOk then .ok ⟨.saved fn, ann2, some (write_rows ann2)⟩
        else .ok ⟨.errorSaving, ann2, none⟩

/-- Status outcome of `delete_annotation`: `deleted` stands for
`"✅ Deleted annotation"`, `errorDeleting` for the caught-write-exception
message, `noFileSelected` for the early `"No file selected"` return. -/
inductive DelStatus where
  | deleted
  | errorDeleting
  | noFileSelected
deriving DecidableEq, Repr

/-- Result of `delete_annotation`: status, returned annotation array, and
the rows successfully rewritten to the CSV (`none` when no successful write
happened). -/
structure DeleteResult where
  status : DelStatus
  ann : List (Option Record)
  written : Option (List Record)
deriving DecidableEq, Repr

/-- `delete_annotation` (src/main.py lines 165-184).  Guard
`not files or idx is None or idx >= len(files)` (integer indices only), then
`if ann and len(ann) > idx: ann[idx] = None` on a copy, then the full-table
rewrite in a `try`/`except`.  `Except.error ()` models an uncaught
IndexError from `ann[idx] = None` (possible only for `idx < -len(ann)`). -/
def delete_annot (writeOk : Bool) (idx : Int) (files : List String)
    (ann : List (Option Record)) : Except Unit DeleteResult :=
  if files = [] ∨ (files.length : Int) ≤ idx then
    .ok ⟨.noFileSelected, ann, none⟩
  else
    match
      (if ann ≠ [] ∧ idx < (ann.length : Int) then pySet ann idx none
       else some ann) with
    | none => .error ()
    | some ann2 =>
      if writeOk then .ok ⟨.deleted, ann2, some (write_rows ann2)⟩
      else .ok ⟨.errorDeleting, ann2, none⟩

/-! Helper lemmas about the embedding. -/

theorem set_self_of_getElem? {l : List α} {i : Nat} {a : α}
    (h : l[i]? = some a) : l.set i a = l := by
  induction l generalizing i with
  | nil => simp at h
  | cons x xs ih =>
    cases i with
    | zero => simp at h; simp [h]
    | succ n => simp only [List.getElem?_cons_succ] at h
                simp [List.set, ih h]

theorem countP_set_some (l : List (Option Record)) (i : Nat) (r : Record)
    (h : i < l.length) :
    ((l.set i (some r)).countP fun a => a.isSome) =
      ((l.set i none).countP fun a => a.isSome) + 1 := by
  induction l generalizing i with
  | nil => simp at h
  | cons x xs ih =>
    cases i with
    | zero => simp [List.countP_cons]
    | succ n =>
      simp only [List.set, List.countP_cons]
      have := ih n (by simpa using h)
      omega

theorem mapLookup_append_none {k : String} {a b : List (String × Record)}
    (h : mapLookup k a = none) :
    mapLookup k (a ++ b) = mapLookup k b := by
  induction a with
  | nil => rfl
  | cons p rest ih =>
    obtain ⟨k', v⟩ := p
    by_cases hk : k' = k
    · simp [mapLookup, hk] at h
    · simp only [mapLookup, if_neg hk] at h
      simpa [mapLookup, if_neg hk] using ih h

theorem mapInsert_of_lookup_none {m : List (String × Record)} {k : String}
    {v : Record} (h : mapLookup k m = none) :
    mapInsert m k v = m ++ [(k, v)] := by
  induction m with
  | nil => rfl
  | cons p rest ih =>
    obtain ⟨k', v'⟩ := p
    by_cases hk : k' = k
    · simp [mapLookup, hk] at h
    · simp only [mapLookup, if_neg hk] at h
      simp [mapInsert, if_neg hk, ih h]

/-- Entry list of a record list: the association pairs a filename-keyed dict
would hold after inserting the records in order, when filenames are fresh. -/
def rowEntries (rows : List Record) : List (String × Record) :=
  rows.map fun r => (r.filename, r)

theorem readRows_rows_of_fresh (rows : List Record)
    (acc : List (String × Record))
    (hdist : rows.Pairwise fun a b => a.filename ≠ b.filename)
    (hacc : ∀ r ∈ rows, mapLookup r.filename acc = none) :
    readRows (rows.map CsvLine.row) acc = acc ++ rowEntries rows := by
  induction rows generalizing acc with
  | nil => simp [readRows, rowEntries]
  | cons r rest ih =>
    have hr : mapLookup r.filename acc = none := hacc r (by simp)
    have hins : mapInsert acc r.filename r = acc ++ [(r.filename, r)] :=
      mapInsert_of_lookup_none hr
    have hdist' := (List.pairwise_cons.mp hdist)
    have step : readRows ((r :: rest).map CsvLine.row) acc
        = readRows (rest.map CsvLine.row) (acc ++ [(r.filename, r)]) := by
      simp [readRows, hins]
    have hacc' : ∀ r' ∈ rest,
        mapLookup r'.filename (acc ++ [(r.filename, r)]) = none := by
      intro r' hr'
      have hne : r.filename ≠ r'.filename := hdist'.1 r' hr'
      have h0 : mapLookup r'.filename acc = none := hacc r' (by simp [hr'])
      rw [mapLookup_append_none h0]
      simp [mapLookup, hne]
    rw [step, ih (acc ++ [(r.filename, r)]) hdist'.2 hacc']
    simp [rowEntries]

theorem mapLookup_rowEntries_mem {rows : List Record} {r : Record}
    (hdist : rows.Pairwise fun a b => a.filename ≠ b.filename)
    (hm : r ∈ rows) :
    mapLookup r.filename (rowEntries rows) = some r := by
  induction rows with
  | nil => simp at hm
  | cons r0 rest ih =>
    have hdist' := List.pairwise_cons.mp hdist
    rcases List.mem_cons.mp hm with h | h
    · subst h
      simp [rowEntries, mapLookup]
    · have hne : r0.filename ≠ r.filename := hdist'.1 r h
      simp only [rowEntries, List.map_cons, mapLookup, if_neg hne]
      exact ih hdist'.2 h

theorem mapLookup_rowEntries_not_mem {rows : List Record} {fn : String}
    (h : fn ∉ rows.map Record.filename) :
    mapLookup fn (rowEntries rows) = none := by
  induction rows with
  | nil => rfl
  | cons r0 rest ih =>
    simp only [List.map_cons, List.mem_cons, not_or] at h
    have hne : r0.filename ≠ fn := fun e => h.1 e.symm
    simp only [rowEntries, List.map_cons, mapLookup, if_neg hne]
    simpa [rowEntries] using ih h.2

theorem mem_write_rows_of_getElem? {ann : List (Option Record)} {i : Nat}
    {r : Record} (h : ann[i]? = some (some r)) : r ∈ write_rows ann := by
  have : some r ∈ ann := List.getElem?_mem h
  exact List.mem_filterMap.mpr ⟨some r, this, rfl⟩

/-! Claim theorems. -/

/-- C1: the merge (`init_annotations`) returns a slot array of the same
length as the corpus, and slot `i` is exactly the dict lookup of
`basename(corpus[i])` in the existing-annotation mapping: the stored record
when the basename is a key, `none` otherwise. -/
theorem c1_init_annots_aligned (C : List String) (m : List (String × Record))
    (i : Nat) (p : String) (h : C[i]? = some p) :
    (init_annots C m).length = C.length ∧
    (init_annots C m)[i]? = some (mapLookup (basename p) m) := by
  constructor
  · simp [init_annots]
  · simp [init_annots, h]

theorem c1_witness :
    (init_annots ["dir/a.wav"] [("a.wav", ⟨"a.wav", "Sad"⟩)]).length =
      (["dir/a.wav"] : List String).length ∧
    (init_annots ["dir/a.wav"] [("a.wav", ⟨"a.wav", "Sad"⟩)])[0]? =
      some (mapLookup (basename "dir/a.wav") [("a.wav", ⟨"a.wav", "Sad"⟩)]) :=
  c1_init_annots_aligned ["dir/a.wav"] [("a.wav", ⟨"a.wav", "Sad"⟩)] 0
    "dir/a.wav" rfl

/-- C5: the progress computation returns the count of non-empty slots and
the fraction annotated/total, returning fraction 0 for an empty array
(without dividing by zero), and exactly 1 when every slot is non-empty. -/
theorem c5_progress_spec (ann : List (Option Record)) (rs : List Record)
    (hrs : rs ≠ []) :
    (get_annot_status ann).1 = (ann.countP fun a => a.isSome) ∧
    (get_annot_status ann).2 =
      (if ann.length = 0 then 0
       else ((ann.countP fun a => a.isSome) : Rat) / (ann.length : Rat)) ∧
    (get_annot_status ([] : List (Option Record))).2 = 0 ∧
    (get_annot_status (rs.map some)).2 = 1 := by
  refine ⟨?_, ?_, by simp [get_annot_status], ?_⟩
  · by_cases h : ann.length = 0
    · have h' : ann = [] := List.length_eq_zero.mp h
      subst h'; simp [get_annot_status]
    · simp [get_annot_status, h]
  · by_cases h : ann.length = 0
    · have h' : ann = [] := List.length_eq_zero.mp h
      subst h'; simp [get_annot_status]
    · simp [get_annot_status, h]
  · have hne : rs.length ≠ 0 := fun h => hrs (List.length_eq_zero.mp h)
    have hcount : ((rs.map some).countP fun a => a.isSome) = rs.length := by
      simp [List.countP_map, Function.comp]
    simp only [get_annot_status, List.length_map, if_neg hne, hcount]
    exact div_self (by exact_mod_cast hne)

theorem c5_witness :
    (get_annot_status [some (⟨"a.wav", ""⟩ : Record), none]).2 = (1 : Rat) / 2 ∧
    (get_annot_status (List.map some [(⟨"b.wav", "Sad"⟩ : Record)])).2 = 1 := by
  have h := c5_progress_spec [some (⟨"a.wav", ""⟩ : Record), none]
    [(⟨"b.wav", "Sad"⟩ : Record)] (List.cons_ne_nil _ _)
  refine ⟨?_, h.2.2.2⟩
  have h2 := h.2.1
  norm_num at h2 ⊢
  exact h2

theorem nav_step_bounds (files : List String) (hne : files ≠ [])
    (d c : Int) :
    0 ≤ (navigate_files d c files).1 ∧
    (navigate_files d c files).1 < (files.length : Int) := by
  have hl : 0 < files.length := List.length_pos.mpr hne
  have hn1 : (1 : Int) ≤ (files.length : Int) := by exact_mod_cast hl
  simp only [navigate_files, if_neg hne]
  refine ⟨le_max_left 0 _, ?_⟩
  have h2 : max 0 (min (c + d) ((files.length : Int) - 1)) ≤
      (files.length : Int) - 1 :=
    max_le (by omega) (min_le_right _ _)
  omega

theorem navSeq_bounds (files : List String) (hne : files ≠ [])
    (moves : List Int) :
    ∀ start : Int, 0 ≤ start → start < (files.length : Int) →
      0 ≤ navSeq files start moves ∧
        navSeq files start moves < (files.length : Int) := by
  induction moves with
  | nil => intro start h0 h1; exact ⟨h0, h1⟩
  | cons d ds ih =>
    intro start h0 h1
    have hb := nav_step_bounds files hne d start
    simpa [navSeq] using ih _ hb.1 hb.2

/-- C2: for a non-empty corpus, any in-bounds starting cursor and any
sequence of moves keeps the cursor in `[0, len-1]`; a `+1` move at the last
index and a `-1` move at index 0 leave the cursor unchanged; and the status
string of any move is `"File " ++ toString (new + 1) ++ " / " ++ toString
len`. -/
theorem c2_navigation (files : List String) (hne : files ≠ [])
    (start : Int) (h0 : 0 ≤ start) (h1 : start < (files.length : Int))
    (moves : List Int) (_hm : ∀ d ∈ moves, d = -1 ∨ d = 1) (d : Int)
    (_hd : d = -1 ∨ d = 1) :
    (0 ≤ navSeq files start moves ∧
      navSeq files start moves < (files.length : Int)) ∧
    (navigate_files 1 ((files.length : Int) - 1) files).1 =
      (files.length : Int) - 1 ∧
    (navigate_files (-1) 0 files).1 = 0 ∧
    (navigate_files d start files).2.2.1 =
      "File " ++ toString ((navigate_files d start files).1 + 1) ++ " / " ++
        toString files.length := by
  have hl : 0 < files.length := List.length_pos.mpr hne
  have hn1 : (1 : Int) ≤ (files.length : Int) := by exact_mod_cast hl
  refine ⟨navSeq_bounds files hne moves start h0 h1, ?_, ?_, ?_⟩
  · have e1 : min ((files.length : Int) - 1 + 1) ((files.length : Int) - 1) =
        (files.length : Int) - 1 := min_eq_right (by omega)
    have e2 : max 0 ((files.length : Int) - 1) = (files.length : Int) - 1 :=
      max_eq_right (by omega)
    simp only [navigate_files, if_neg hne, e1, e2]
  · have e1 : min (0 + -1) ((files.length : Int) - 1) = 0 + -1 :=
      min_eq_left (by omega)
    have e2 : max 0 (0 + (-1 : Int)) = 0 := max_eq_left (by omega)
    simp only [navigate_files, if_neg hne, e1, e2]
  · simp only [navigate_files, if_neg hne]

theorem c2_witness :
    (0 ≤ navSeq ["a.wav", "b.wav"] 0 [1, 1, -1] ∧
      navSeq ["a.wav", "b.wav"] 0 [1, 1, -1] <
        ((["a.wav", "b.wav"] : List String).length : Int)) ∧
    (navigate_files 1 (((["a.wav", "b.wav"] : List String).length : Int) - 1)
        ["a.wav", "b.wav"]).1 =
      ((["a.wav", "b.wav"] : List String).length : Int) - 1 ∧
    (navigate_files (-1) 0 ["a.wav", "b.wav"]).1 = 0 ∧
    (navigate_files 1 0 ["a.wav", "b.wav"]).2.2.1 =
      "File " ++ toString ((navigate_files 1 0 ["a.wav", "b.wav"]).1 + 1) ++
        " / " ++ toString (["a.wav", "b.wav"] : List String).length :=
  c2_navigation ["a.wav", "b.wav"] (by decide) 0 (by decide) (by decide)
    [1, 1, -1] (by decide) 1 (by decide)

theorem joinLabels_nil : joinLabels [] = "" := rfl

/-- C6: deleting an already-empty in-bounds slot succeeds with the deleted
status, leaves the slot array unchanged, and still rewrites the full
persisted table; applying the delete again to the returned array gives the
identical result, so both rounds produce identical slot arrays and
identical persisted contents. -/
theorem c6_delete_idem (files : List String) (ann : List (Option Record))
    (i : Nat) (res : DeleteResult) (hif : i < files.length)
    (hempty : ann[i]? = some none)
    (hres : delete_annot true (i : Int) files ann = Except.ok res) :
    delete_annot true (i : Int) files ann =
      Except.ok ⟨DelStatus.deleted, ann, some (write_rows ann)⟩ ∧
    delete_annot true (i : Int) files res.ann = Except.ok res := by
  have hne : files ≠ [] := by
    intro h; subst h; simp at hif
  have hia : i < ann.length := by
    rcases List.getElem?_eq_some.mp hempty with ⟨h, _⟩; exact h
  have hanne : ann ≠ [] := by
    intro h; subst h; simp at hempty
  have h2 : (i : Int) < (ann.length : Int) := by exact_mod_cast hia
  have hset : pySet ann (i : Int) none = some ann := by
    simp only [pySet, if_pos (Int.ofNat_nonneg i), if_pos h2, Int.toNat_ofNat]
    rw [set_self_of_getElem? hempty]
  have hguard : ¬(files = [] ∨ (files.length : Int) ≤ (i : Int)) := by
    push_neg
    exact ⟨hne, by exact_mod_cast hif⟩
  have hmain : delete_annot true (i : Int) files ann =
      Except.ok ⟨DelStatus.deleted, ann, some (write_rows ann)⟩ := by
    simp only [delete_annot, if_neg hguard, if_pos (And.intro hanne h2), hset,
      if_true]
  refine ⟨hmain, ?_⟩
  rw [hmain] at hres
  have hr : (⟨DelStatus.deleted, ann, some (write_rows ann)⟩ : DeleteResult)
      = res := by injection hres
  rw [← hr]
  exact hmain

theorem c6_witness :
    delete_annot true ((0 : Nat) : Int) ["a.wav"] [none] =
      Except.ok ⟨DelStatus.deleted, [none], some (write_rows [none])⟩ ∧
    delete_annot true ((0 : Nat) : Int) ["a.wav"]
        (DeleteResult.mk DelStatus.deleted [none]
          (some (write_rows [none]))).ann =
      Except.ok ⟨DelStatus.deleted, [none], some (write_rows [none])⟩ :=
  c6_delete_idem ["a.wav"] [none] 0
    ⟨DelStatus.deleted, [none], some (write_rows [none])⟩
    (by decide) rfl rfl

theorem save_annot_in_bounds (writeOk : Bool) (files : List String)
    (ann : List (Option Record)) (labels : List String) (i : Nat) (p : String)
    (hp : files[i]? = some p) (hlen : ann.length = files.length) :
    save_annot writeOk (i : Int) files labels ann =
      (if writeOk then
        Except.ok ⟨SaveStatus.saved (basename p),
          ann.set i (some ⟨basename p, joinLabels labels⟩),
          some (write_rows (ann.set i (some ⟨basename p, joinLabels labels⟩)))⟩
      else Except.ok ⟨SaveStatus.errorSaving,
          ann.set i (some ⟨basename p, joinLabels labels⟩), none⟩) := by
  have hi : i < files.length := (List.getElem?_eq_some.mp hp).1
  have hne : files ≠ [] := by intro h; subst h; simp at hi
  have hguard : ¬(files = [] ∨ (files.length : Int) ≤ (i : Int)) := by
    push_neg; exact ⟨hne, by exact_mod_cast hi⟩
  have hget : pyGet files (i : Int) = some p := by
    simp only [pyGet, if_pos (Int.ofNat_nonneg i), Int.toNat_ofNat, hp]
  have hia : (i : Int) < (ann.length : Int) := by
    rw [hlen]; exact_mod_cast hi
  have hset : pySet ann (i : Int) (some ⟨basename p, joinLabels labels⟩) =
      some (ann.set i (some ⟨basename p, joinLabels labels⟩)) := by
    simp only [pySet, if_pos (Int.ofNat_nonneg i), if_pos hia, Int.toNat_ofNat]
  simp only [save_annot, if_neg hguard, hget, hset]

/-- C4: saving with an empty label selection at an in-bounds index produces
a slot array whose slot `i` is a non-empty record with an empty labels
field; that record appears in the written rows and the projected table, and
it raises the annotated count by one compared to the same array with slot
`i` unset. -/
theorem c4_empty_labels_slot (files : List String) (ann : List (Option Record))
    (i : Nat) (p : String) (hp : files[i]? = some p)
    (hlen : ann.length = files.length) :
    save_annot true (i : Int) files [] ann =
      Except.ok ⟨SaveStatus.saved (basename p),
        ann.set i (some ⟨basename p, ""⟩),
        some (write_rows (ann.set i (some ⟨basename p, ""⟩)))⟩ ∧
    (ann.set i (some ⟨basename p, ""⟩))[i]? = some (some ⟨basename p, ""⟩) ∧
    (⟨basename p, ""⟩ : Record) ∈
      write_rows (ann.set i (some ⟨basename p, ""⟩)) ∧
    (basename p, "") ∈ get_annots_table (ann.set i (some ⟨basename p, ""⟩)) ∧
    (get_annot_status (ann.set i (some ⟨basename p, ""⟩))).1 =
      (get_annot_status (ann.set i none)).1 + 1 := by
  have hi : i < files.length := (List.getElem?_eq_some.mp hp).1
  have hia : i < ann.length := by rw [hlen]; exact hi
  have h1 := save_annot_in_bounds true files ann [] i p hp hlen
  rw [joinLabels_nil, if_pos rfl] at h1
  have hslot : (ann.set i (some ⟨basename p, ""⟩))[i]? =
      some (some ⟨basename p, ""⟩) :=
    List.getElem?_set_self (by simpa using hia)
  refine ⟨h1, hslot, mem_write_rows_of_getElem? hslot, ?_, ?_⟩
  · have hm : (⟨basename p, ""⟩ : Record) ∈
        (ann.set i (some ⟨basename p, ""⟩)).filterMap id :=
      mem_write_rows_of_getElem? hslot
    exact List.mem_map.mpr ⟨⟨basename p, ""⟩, hm, rfl⟩
  · have hc := countP_set_some ann i ⟨basename p, ""⟩ hia
    have hnz : ¬ann.length = 0 := by omega
    simp only [get_annot_status, List.length_set, if_neg hnz]
    exact hc

theorem c4_witness :
    save_annot true ((0 : Nat) : Int) ["dir/a.wav"] [] [none] =
      Except.ok ⟨SaveStatus.saved (basename "dir/a.wav"),
        ([none] : List (Option Record)).set 0 (some ⟨basename "dir/a.wav", ""⟩),
        some (write_rows (([none] : List (Option Record)).set 0
          (some ⟨basename "dir/a.wav", ""⟩)))⟩ ∧
    (([none] : List (Option Record)).set 0
        (some ⟨basename "dir/a.wav", ""⟩))[0]? =
      some (some ⟨basename "dir/a.wav", ""⟩) ∧
    (⟨basename "dir/a.wav", ""⟩ : Record) ∈
      write_rows (([none] : List (Option Record)).set 0
        (some ⟨basename "dir/a.wav", ""⟩)) ∧
    (basename "dir/a.wav", "") ∈
      get_annots_table (([none] : List (Option Record)).set 0
        (some ⟨basename "dir/a.wav", ""⟩)) ∧
    (get_annot_status (([none] : List (Option Record)).set 0
        (some ⟨basename "dir/a.wav", ""⟩))).1 =
      (get_annot_status (([none] : List (Option Record)).set 0 none)).1 + 1 :=
  c4_empty_labels_slot ["dir/a.wav"] [none] 0 "dir/a.wav" rfl rfl

/-- C9: when the CSV write fails during a save at an in-bounds index, the
operation returns the failed-operation status while the returned in-memory
slot array is exactly the updated array: slot `i` holds the new record,
every other slot is unchanged, the length is unchanged, and nothing was
written. -/
theorem c9_write_failure_keeps_memory (files : List String)
    (ann : List (Option Record)) (labels : List String) (i : Nat) (p : String)
    (hp : files[i]? = some p) (hlen : ann.length = files.length)
    (j : Nat) (hj : j ≠ i) :
    save_annot false (i : Int) files labels ann =
      Except.ok ⟨SaveStatus.errorSaving,
        ann.set i (some ⟨basename p, joinLabels labels⟩), none⟩ ∧
    (ann.set i (some ⟨basename p, joinLabels labels⟩))[i]? =
      some (some ⟨basename p, joinLabels labels⟩) ∧
    (ann.set i (some ⟨basename p, joinLabels labels⟩))[j]? = ann[j]? ∧
    (ann.set i (some ⟨basename p, joinLabels labels⟩)).length = ann.length := by
  have hi : i < files.length := (List.getElem?_eq_some.mp hp).1
  have hia : i < ann.length := by rw [hlen]; exact hi
  have h1 := save_annot_in_bounds false files ann labels i p hp hlen
  rw [if_neg (by simp)] at h1
  exact ⟨h1, List.getElem?_set_self (by simpa using hia),
    List.getElem?_set_ne (fun e => hj e.symm), by simp⟩

theorem c9_witness :
    save_annot false ((1 : Nat) : Int) ["a.wav", "b.wav"] ["Happy"]
        [some ⟨"a.wav", "Sad"⟩, none] =
      Except.ok ⟨SaveStatus.errorSaving,
        ([some ⟨"a.wav", "Sad"⟩, none] : List (Option Record)).set 1
          (some ⟨basename "b.wav", joinLabels ["Happy"]⟩), none⟩ ∧
    (([some ⟨"a.wav", "Sad"⟩, none] : List (Option Record)).set 1
        (some ⟨basename "b.wav", joinLabels ["Happy"]⟩))[1]? =
      some (some ⟨basename "b.wav", joinLabels ["Happy"]⟩) ∧
    (([some ⟨"a.wav", "Sad"⟩, none] : List (Option Record)).set 1
        (some ⟨basename "b.wav", joinLabels ["Happy"]⟩))[0]? =
      ([some ⟨"a.wav", "Sad"⟩, none] : List (Option Record))[0]? ∧
    (([some ⟨"a.wav", "Sad"⟩, none] : List (Option Record)).set 1
        (some ⟨basename "b.wav", joinLabels ["Happy"]⟩)).length =
      ([some ⟨"a.wav", "Sad"⟩, none] : List (Option Record)).length :=
  c9_write_failure_keeps_memory ["a.wav", "b.wav"]
    [some ⟨"a.wav", "Sad"⟩, none] ["Happy"] 1 "b.wav" rfl rfl 0 (by decide)

/-- C10: a negative index in `[-n, 0)` passes the out-of-range guard of the
save (which only tests `index >= len(file_list)`), so the save is applied
at slot `n + i` by Python negative indexing instead of failing. -/
theorem c10_negative_index_applied (files : List String)
    (ann : List (Option Record)) (labels : List String) (i : Int) (p : String)
    (hlen : ann.length = files.length)
    (hlo : -(files.length : Int) ≤ i) (hhi : i < 0)
    (hp : files[((files.length : Int) + i).toNat]? = some p) :
    save_annot true i files labels ann =
      Except.ok ⟨SaveStatus.saved (basename p),
        ann.set ((files.length : Int) + i).toNat
          (some ⟨basename p, joinLabels labels⟩),
        some (write_rows (ann.set ((files.length : Int) + i).toNat
          (some ⟨basename p, joinLabels labels⟩)))⟩ := by
  have hne : files ≠ [] := by
    intro h; subst h; simp at hlo; omega
  have hguard : ¬(files = [] ∨ (files.length : Int) ≤ i) := by
    push_neg
    exact ⟨hne, by omega⟩
  have h0 : ¬(0 ≤ i) := by omega
  have hget : pyGet files i = some p := by
    have h1 : 0 ≤ (files.length : Int) + i := by omega
    simp only [pyGet, if_neg h0, if_pos h1, hp]
  have hset : pySet ann i (some ⟨basename p, joinLabels labels⟩) =
      some (ann.set ((files.length : Int) + i).toNat
        (some ⟨basename p, joinLabels labels⟩)) := by
    have h1 : 0 ≤ (files.length : Int) + i := by omega
    simp only [pySet, if_neg h0, hlen, if_pos h1]
  simp only [save_annot, if_neg hguard, hget, hset, if_true]

theorem c10_witness :
    save_annot true (-1) ["a.wav", "b.wav"] ["Calm"] [none, none] =
      Except.ok ⟨SaveStatus.saved (basename "b.wav"),
        ([none, none] : List (Option Record)).set
          (((["a.wav", "b.wav"] : List String).length : Int) + -1).toNat
          (some ⟨basename "b.wav", joinLabels ["Calm"]⟩),
        some (write_rows (([none, none] : List (Option Record)).set
          (((["a.wav", "b.wav"] : List String).length : Int) + -1).toNat
          (some ⟨basename "b.wav", joinLabels ["Calm"]⟩)))⟩ :=
  c10_negative_index_applied ["a.wav", "b.wav"] [none, none] ["Calm"] (-1)
    "b.wav" rfl (by decide) (by decide) rfl

/-- C7 counterexample: with one file and index 1 (outside `[0, 1)`), the
save does not raise an IndexError — it is silently absorbed, returning the
no-file status and the annotations unchanged. -/
theorem c7_counterexample :
    save_annot true 1 ["a.wav"] ["Happy"] [none] =
      Except.ok ⟨SaveStatus.noFile, [none], none⟩ ∧
    save_annot true 1 ["a.wav"] ["Happy"] [none] ≠ Except.error () := by
  refine ⟨rfl, ?_⟩
  intro h
  rw [(rfl : save_annot true 1 ["a.wav"] ["Happy"] [none] =
    Except.ok ⟨SaveStatus.noFile, [none], none⟩)] at h
  exact Except.noConfusion h

/-- C7 amended: an index at or above `len(file_list)` (which includes every
index outside `[0, n)` caught by the guard `index >= len`) is silently
absorbed — the save returns the no-file status and the annotations
unchanged, with nothing written, rather than raising IndexError; an
IndexError is raised only for an index below `-len(file_list)` on a
non-empty file list (indices in `[-n, 0)` are applied, see C10). -/
theorem c7_out_of_range_absorbed (w : Bool) (files : List String)
    (labels : List String) (ann : List (Option Record)) (i : Int)
    (hge : (files.length : Int) ≤ i) (i' : Int) (hne : files ≠ [])
    (hlo : i' < -(files.length : Int)) :
    save_annot w i files labels ann =
      Except.ok ⟨SaveStatus.noFile, ann, none⟩ ∧
    save_annot w i' files labels ann = Except.error () := by
  constructor
  · simp only [save_annot, if_pos (Or.inr hge)]
  · have hguard : ¬(files = [] ∨ (files.length : Int) ≤ i') := by
      push_neg
      exact ⟨hne, by omega⟩
    have hget : pyGet files i' = none := by
      have h0 : ¬(0 ≤ i') := by omega
      have h1 : ¬(0 ≤ (files.length : Int) + i') := by omega
      simp only [pyGet, if_neg h0, if_neg h1]
    simp only [save_annot, if_neg hguard, hget]

theorem c7_witness :
    save_annot true 2 ["a.wav"] ["Happy"] [none] =
      Except.ok ⟨SaveStatus.noFile, [none], none⟩ ∧
    save_annot true (-2) ["a.wav"] ["Happy"] [none] = Except.error () :=
  c7_out_of_range_absorbed true ["a.wav"] ["Happy"] [none] 2 (by decide)
    (-2) (by decide) (by decide)

/-- C3 counterexample: with two non-empty slots sharing the basename
"a.wav", the parse of the written table maps "a.wav" to the second slot's
record, so slot 0 is not restored with its own labels field. -/
theorem c3_counterexample :
    ([some ⟨"a.wav", "Angry"⟩, some ⟨"a.wav", "Calm"⟩] :
        List (Option Record))[0]? = some (some ⟨"a.wav", "Angry"⟩) ∧
    mapLookup "a.wav"
      (load_existing_annots (.present (write_lines
        [some ⟨"a.wav", "Angry"⟩, some ⟨"a.wav", "Calm"⟩]))) =
      some ⟨"a.wav", "Calm"⟩ ∧
    (⟨"a.wav", "Calm"⟩ : Record) ≠ (⟨"a.wav", "Angry"⟩ : Record) :=
  ⟨rfl, rfl, by decide⟩

/-- C3 amended: for every slot array whose non-empty slots carry pairwise
distinct filenames, writing the persisted table and parsing it back
restores, for every non-empty slot, the record with the same filename and
the same labels field; one row is emitted per non-empty slot, and a
filename carried by no non-empty slot parses back as absent. -/
theorem c3_roundtrip (slots : List (Option Record))
    (hdist : (write_rows slots).Pairwise fun a b => a.filename ≠ b.filename)
    (i : Nat) (r : Record) (hslot : slots[i]? = some (some r)) (fn : String)
    (hfn : fn ∉ (write_rows slots).map Record.filename) :
    mapLookup r.filename
      (load_existing_annots (.present (write_lines slots))) = some r ∧
    (write_lines slots).length = (write_rows slots).length ∧
    mapLookup fn (load_existing_annots (.present (write_lines slots)))
      = none := by
  have hload : load_existing_annots (.present (write_lines slots)) =
      rowEntries (write_rows slots) := by
    have h := readRows_rows_of_fresh (write_rows slots) [] hdist
      (fun _ _ => rfl)
    simpa [load_existing_annots, write_lines] using h
  refine ⟨?_, by simp [write_lines], ?_⟩
  · rw [hload]
    exact mapLookup_rowEntries_mem hdist (mem_write_rows_of_getElem? hslot)
  · rw [hload]
    exact mapLookup_rowEntries_not_mem hfn

theorem c3_witness :
    mapLookup (Record.filename ⟨"a.wav", "Happy, Calm"⟩)
      (load_existing_annots (.present (write_lines
        [some ⟨"a.wav", "Happy, Calm"⟩, none]))) =
      some ⟨"a.wav", "Happy, Calm"⟩ ∧
    (write_lines [some ⟨"a.wav", "Happy, Calm"⟩, none]).length =
      (write_rows [some ⟨"a.wav", "Happy, Calm"⟩, none]).length ∧
    mapLookup "b.wav"
      (load_existing_annots (.present (write_lines
        [some ⟨"a.wav", "Happy, Calm"⟩, none]))) = none :=
  c3_roundtrip [some ⟨"a.wav", "Happy, Calm"⟩, none]
    (by simp [write_rows]) 0 ⟨"a.wav", "Happy, Calm"⟩ rfl "b.wav" (by decide)

/-- C8 counterexample: a persisted file whose first line is a well-formed
row and whose second line raises during reading yields a non-empty partial
mapping, not the empty mapping the claim requires. -/
theorem c8_counterexample :
    load_existing_annots (.present [CsvLine.row ⟨"a.wav", "Sad"⟩, CsvLine.bad])
      = [("a.wav", ⟨"a.wav", "Sad"⟩)] ∧
    load_existing_annots (.present [CsvLine.row ⟨"a.wav", "Sad"⟩, CsvLine.bad])
      ≠ [] := ⟨rfl, by decide⟩

theorem readRows_map_row_append (rows : List Record) (ls : List CsvLine)
    (acc : List (String × Record)) :
    readRows (rows.map CsvLine.row ++ ls) acc =
      readRows ls (readRows (rows.map CsvLine.row) acc) := by
  induction rows generalizing acc with
  | nil => rfl
  | cons r rest ih => simp [readRows, ih]

/-- C8 amended: the load returns the empty mapping when no persisted file
exists, and a malformed file never lets an exception escape; but the
recovery returns the rows read before the failing line — empty only when
the failure precedes every well-formed row, and otherwise a partial (not
necessarily empty) mapping. -/
theorem c8_best_effort_recovery (rows : List Record) (rest : List CsvLine) :
    load_existing_annots .absent = [] ∧
    load_existing_annots (.present (CsvLine.bad :: rest)) = [] ∧
    load_existing_annots
        (.present (rows.map CsvLine.row ++ CsvLine.bad :: rest)) =
      load_existing_annots (.present (rows.map CsvLine.row)) := by
  refine ⟨rfl, rfl, ?_⟩
  simp only [load_existing_annots, readRows_map_row_append]
  rfl

theorem c8_witness :
    load_existing_annots .absent = [] ∧
    load_existing_annots (.present (CsvLine.bad :: [])) = [] ∧
    load_existing_annots
        (.present (([⟨"a.wav", "Sad"⟩] : List Record).map CsvLine.row ++
          CsvLine.bad :: [])) =
      load_existing_annots
        (.present (([⟨"a.wav", "Sad"⟩] : List Record).map CsvLine.row)) :=
  c8_best_effort_recovery [⟨"a.wav", "Sad"⟩] []
